import Mathlib

/-!
Verification development for the farm-api backend (expense ingestion with
category resolution, bulk import, bulk delete, expense reading with date
normalization and field aliasing, and the animal dashboard summary).

The TypeScript handlers are shallowly embedded: the Supabase record store
becomes an explicit `Store` value threaded through each operation, JavaScript
numbers become `Rat` (so division in the average is exact), optional or
possibly-undefined JSON fields become `Option`, and JavaScript truthiness
(`!x`, `x || y`) is translated by dedicated helpers.  Whether a store insert
or delete call succeeds is an oracle carried in the `Store` (the store is an
external service that may fail on any call); a failed call leaves the store
unchanged (row-level writes are atomic at the store).
-/

namespace FarmApi

/-- JS falsiness of an optional string value: `undefined`, `null` and the
empty string are falsy (used by `!x` checks and `x || y` chains). -/
def strFalsy : Option String → Bool
  | none => true
  | some s => decide (s = "")

/-- JS falsiness of an optional numeric value: `undefined`, `null` and `0`
are falsy. -/
def numFalsy : Option Rat → Bool
  | none => true
  | some q => decide (q = 0)

/-- The truthy value of an optional string, or `none`: models the value an
`x || y` chain keeps from `x` (empty string is skipped). -/
def strVal : Option String → Option String
  | none => none
  | some s => if s = "" then none else some s

/-- The truthy value of an optional number, or `none` (zero is skipped by
`x || y`). -/
def numVal : Option Rat → Option Rat
  | none => none
  | some q => if q = 0 then none else some q

/-- The truthy value of an optional natural, or `none` (zero is skipped). -/
def natVal : Option Nat → Option Nat
  | none => none
  | some n => if n = 0 then none else some n

/-- A row of the `categories` table.  `name` is `Option String` because the
insert path passes `expense.category` through unchecked, so a row created for
an expense without a category stores a null name. -/
structure Category where
  id : Nat
  name : Option String
  subCategories : List (Option String)
deriving DecidableEq

/-- An expense record as it arrives in a request body: every field may be
absent, as in the JSON wire format. -/
structure RawExpense where
  description : Option String
  amount : Option Rat
  type : Option String
  date : Option String
  paidBy : Option String
  category : Option String
  subCategory : Option String
  source : Option String
  notes : Option String
deriving DecidableEq

/-- A row of the `expenses` table, mirroring the `expenseData` object built
by `insertExpense` (the stored row carries `categoryId`, not the name). -/
structure ExpenseRow where
  id : Nat
  description : Option String
  amount : Option Rat
  type : Option String
  date : Option String
  paidBy : Option String
  categoryId : Nat
  subCategory : Option String
  source : Option String
  notes : Option String
deriving DecidableEq

/-- Errors surfaced by the insert pipeline: the failed creation of a missing
category, or a failed insert into the `expenses` table. -/
inductive InsertErr where
  | categoryCreate
  | expenseInsert
deriving DecidableEq

/-- The record store.  `catInsertOk` and `expInsertOk` are oracles saying
whether the insert of the row that would receive the given fresh id succeeds
(the store is external and any call may fail); `deleteOk` says whether a
delete call succeeds. -/
structure Store where
  categories : List Category
  expenses : List ExpenseRow
  nextCategoryId : Nat
  nextExpenseId : Nat
  catInsertOk : Nat → Bool
  expInsertOk : Nat → Bool
  deleteOk : Bool

/-- The category lookup `supabase.from(categories).select(id).eq(name, c)
.single()`: `.single()` succeeds exactly when one row matches, so zero or
several matching rows both produce a lookup error (`none`). -/
def lookupCategorySingle (s : Store) (cat : Option String) : Option Nat :=
  match s.categories.filter (fun c => decide (c.name = cat)) with
  | [c] => some c.id
  | _ => none

/-- JS truthiness of an array value: an array object is always truthy,
whatever it contains. -/
def arrayTruthy (_ : List (Option String)) : Bool := true

/-- The `subCategories` value of a newly created category, translating
`const subCatgrs = [expense.subCategory]` followed by
`subCatgrs || ["General"]`: the `||` applies to the wrapper array, which is
always truthy, so the `["General"]` fallback can never be chosen. -/
def subCategoriesForCreate (sub : Option String) : List (Option String) :=
  let subCatgrs : List (Option String) := [sub]
  if arrayTruthy subCatgrs then subCatgrs else [some "General"]

/-- The category-resolution step of `insertExpense`: query by exact name
with `.single()`; on lookup error, insert a new category row (whose fresh id
is `nextCategoryId`), failing with a creation error when the store insert
fails.  A failed insert leaves the store unchanged. -/
def resolveCategory (s : Store) (cat : Option String) (sub : Option String) :
    Except InsertErr Nat × Store :=
  match lookupCategorySingle s cat with
  | some cid => (Except.ok cid, s)
  | none =>
    if s.catInsertOk s.nextCategoryId then
      let newCat : Category :=
        { id := s.nextCategoryId, name := cat,
          subCategories := subCategoriesForCreate sub }
      (Except.ok s.nextCategoryId,
        { s with categories := s.categories ++ [newCat],
                 nextCategoryId := s.nextCategoryId + 1 })
    else (Except.error InsertErr.categoryCreate, s)

/-- The helper `insertExpense`: resolve the category (possibly creating it),
then insert the expense row carrying `categoryId`; `subCategory`, `source`
and `notes` are stored as `x || null`.  Either error is rethrown to the
caller; a category created before a failing expense insert stays created. -/
def insertExpense (s : Store) (e : RawExpense) : Except InsertErr ExpenseRow × Store :=
  match resolveCategory s e.category e.subCategory with
  | (Except.error err, s1) => (Except.error err, s1)
  | (Except.ok cid, s1) =>
    if s1.expInsertOk s1.nextExpenseId then
      let row : ExpenseRow :=
        { id := s1.nextExpenseId,
          description := e.description,
          amount := e.amount,
          type := e.type,
          date := e.date,
          paidBy := e.paidBy,
          categoryId := cid,
          subCategory := strVal e.subCategory,
          source := strVal e.source,
          notes := strVal e.notes }
      (Except.ok row,
        { s1 with expenses := s1.expenses ++ [row],
                  nextExpenseId := s1.nextExpenseId + 1 })
    else (Except.error InsertErr.expenseInsert, s1)

/-- The handler `addExpense` (POST /api/expenses), reduced to its HTTP
status and the resulting store: the required-field check
`!description || !amount || !category` answers 400 before any store access;
a successful insert answers 201; a thrown insert error answers 500.  (The
201 response body, which echoes the inserted row with the original category
name, is not modelled: no claim concerns it.) -/
def addExpense (s : Store) (e : RawExpense) : Nat × Store :=
  if strFalsy e.description || numFalsy e.amount || strFalsy e.category then
    (400, s)
  else
    match insertExpense s e with
    | (Except.ok _, s1) => (201, s1)
    | (Except.error _, s1) => (500, s1)

/-- The response of the bulk import handler. -/
structure ImportResult where
  successCount : Nat
  totalCount : Nat
  errors : List (Option String)
deriving DecidableEq

/-- The per-record loop of `importExpenses`: each record goes through
`insertExpense` inside its own try/catch, so a failure is recorded (the
error message carries the record description) and the loop continues. -/
def importLoop (s : Store) : List RawExpense → (Nat × List (Option String)) × Store
  | [] => ((0, []), s)
  | e :: rest =>
    match insertExpense s e with
    | (Except.ok _, s1) =>
      let ((n, errs), s2) := importLoop s1 rest
      ((n + 1, errs), s2)
    | (Except.error _, s1) =>
      let ((n, errs), s2) := importLoop s1 rest
      ((n, e.description :: errs), s2)

/-- The handler `importExpenses` (POST /api/expenses/import) on an array
body: run the loop and report `successCount`, `totalCount` (the input
length) and the collected errors. -/
def importExpenses (s : Store) (es : List RawExpense) : ImportResult × Store :=
  let ((n, errs), s1) := importLoop s es
  ({ successCount := n, totalCount := es.length, errors := errs }, s1)

/-- Decimal digit value of a character, if any. -/
def digitVal10 (c : Char) : Option Nat :=
  if c.isDigit then some (c.toNat - 48) else none

/-- Hexadecimal digit value of a character, if any. -/
def digitVal16 (c : Char) : Option Nat :=
  if c.isDigit then some (c.toNat - 48)
  else if 'a' ≤ c ∧ c ≤ 'f' then some (c.toNat - 87)
  else if 'A' ≤ c ∧ c ≤ 'F' then some (c.toNat - 55)
  else none

/-- Consume the longest digit prefix in the given base, returning the value
read and whether at least one digit was consumed. -/
def takeDigits (base : Nat) (dv : Char → Option Nat) :
    List Char → Nat → Bool → Nat × Bool
  | [], acc, got => (acc, got)
  | c :: rest, acc, got =>
    match dv c with
    | some d => takeDigits base dv rest (acc * base + d) true
    | none => (acc, got)

/-- JS `parseInt(s)` with no radix argument: trim whitespace, read an
optional sign, then either a `0x`/`0X` hexadecimal literal or a decimal
digit prefix; `none` when no digit is read (`NaN`).  Only leading
whitespace is skipped, as in JS. -/
def parseIntJs (s : String) : Option Int :=
  let cs := s.toList.dropWhile Char.isWhitespace
  let signed : Int × List Char :=
    match cs with
    | c :: tail =>
      if c = '+' then (1, tail)
      else if c = '-' then (-1, tail)
      else (1, cs)
    | [] => (1, [])
  let sign := signed.1
  let rest := signed.2
  let hex : Bool :=
    match rest with
    | c0 :: cx :: _ => c0 = '0' ∧ (cx = 'x' ∨ cx = 'X')
    | _ => false
  if hex then
    match takeDigits 16 digitVal16 (rest.drop 2) 0 false with
    | (_, false) => none
    | (v, true) => some (sign * v)
  else
    match takeDigits 10 digitVal10 rest 0 false with
    | (_, false) => none
    | (v, true) => some (sign * v)

/-- The anchored regular expression test for a strict ISO date,
translating `/^\d{4}-\d{2}-\d{2}$/.test(dateStr)`. -/
def dateRegexMatch (s : String) : Bool :=
  match s.toList with
  | [y1, y2, y3, y4, h1, m1, m2, h2, d1, d2] =>
    y1.isDigit && y2.isDigit && y3.isDigit && y4.isDigit &&
    decide (h1 = '-') && m1.isDigit && m2.isDigit &&
    decide (h2 = '-') && d1.isDigit && d2.isDigit
  | _ => false

/-- Helper for `splitSlash`: accumulate the current chunk (in reverse) while
walking the characters. -/
def splitSlashGo : List Char → List Char → List String
  | acc, [] => [String.mk acc.reverse]
  | acc, c :: rest =>
    if c = '/' then String.mk acc.reverse :: splitSlashGo [] rest
    else splitSlashGo (c :: acc) rest

/-- JS `dateStr.split("/")` (on the empty string it yields one empty
chunk, like the JS original). -/
def splitSlash (s : String) : List String :=
  splitSlashGo [] s.toList

/-- JS `part.padStart(2, "0")`. -/
def padStart2 (s : String) : String :=
  if s.length = 0 then "00"
  else if s.length = 1 then "0" ++ s
  else s

/-- The date-normalization block of `readExpenses` on a date string, paired
with whether the `console.warn` in its catch block fires.  `formattedDate`
starts as the current date (`today`); a falsy (empty) string skips the whole
block; a strict ISO match passes through; otherwise the string is split on
`/` and, with exactly three parts, reassembled as `year-month-day` with
zero-padded month and day.  Every operation in the try block is total on
strings, so the catch — and with it the warning — is unreachable for string
input: the second component is `false` in every branch. -/
def normalizeDate (today : String) (dateStr : String) : String × Bool :=
  if dateStr = "" then (today, false)
  else if dateRegexMatch dateStr then (dateStr, false)
  else
    match splitSlash dateStr with
    | [month, day, year] =>
      (year ++ "-" ++ padStart2 month ++ "-" ++ padStart2 day, false)
    | _ => (today, false)

/-- A raw row of the `allexpenses` table as `readExpenses` receives it: each
field may appear under a capitalized human label (`Date`, `Paid By`,
`Sub-Category`, ...) and under a camelCase key, and either may be absent.
The `Cap` suffix marks the capitalized variant. -/
structure SourceRow where
  id : Option Nat
  dateCap : Option String
  date : Option String
  typeCap : Option String
  type : Option String
  descriptionCap : Option String
  description : Option String
  amountCap : Option Rat
  amount : Option Rat
  paidByCap : Option String
  paidBy : Option String
  categoryCap : Option String
  category : Option String
  subCategoryCap : Option String
  subCategory : Option String
  sourceCap : Option String
  source : Option String
  notesCap : Option String
  notes : Option String
deriving DecidableEq

/-- An expense record as `readExpenses` returns it to the client. -/
structure OutExpense where
  id : String
  date : String
  type : String
  description : String
  amount : Rat
  paidBy : String
  category : String
  subCategory : String
  source : String
  notes : String
deriving DecidableEq

/-- The per-row transformation of `readExpenses`: every aliased field is
read as `item.Label || item.camelKey || default` (JS `||`, so an empty
string or zero falls through), the id falls back to `index + 1`, and the
date goes through `normalizeDate` with the current date as `today`. -/
def transformExpenseRow (today : String) (index : Nat) (item : SourceRow) :
    OutExpense :=
  let dateStr := (strVal item.dateCap).orElse (fun _ => strVal item.date)
  let formattedDate :=
    match dateStr with
    | none => today
    | some ds => (normalizeDate today ds).1
  { id := toString ((natVal item.id).getD (index + 1)),
    date := formattedDate,
    type := (((strVal item.typeCap).orElse
      (fun _ => strVal item.type)).getD "Expense"),
    description := (((strVal item.descriptionCap).orElse
      (fun _ => strVal item.description)).getD "No description"),
    amount := (((numVal item.amountCap).orElse
      (fun _ => numVal item.amount)).getD 0),
    paidBy := (((strVal item.paidByCap).orElse
      (fun _ => strVal item.paidBy)).getD "Unknown"),
    category := (((strVal item.categoryCap).orElse
      (fun _ => strVal item.category)).getD "Other"),
    subCategory := (((strVal item.subCategoryCap).orElse
      (fun _ => strVal item.subCategory)).getD "General"),
    source := (((strVal item.sourceCap).orElse
      (fun _ => strVal item.source)).getD "Unknown"),
    notes := (((strVal item.notesCap).orElse
      (fun _ => strVal item.notes)).getD "") }

/-- The outcome of the bulk-delete handler: an HTTP status and, on success,
the reported `deletedCount`. -/
structure BulkDeleteResult where
  status : Nat
  deletedCount : Option Nat
deriving DecidableEq

/-- The handler `bulkDeleteExpenses` (POST /api/expenses/bulk-delete): a
missing array answers 400; the string ids are run through `parseInt` and
the unparseable ones (`NaN`) dropped; an empty remainder answers 400 with no
store access; otherwise the store deletes every expense row whose id is in
the list, and the response reports `deletedCount` equal to the length of the
parsed id list (not the number of rows removed). -/
def bulkDeleteExpenses (s : Store) (ids : Option (List String)) :
    BulkDeleteResult × Store :=
  match ids with
  | none => ({ status := 400, deletedCount := none }, s)
  | some idStrs =>
    let numericIds := idStrs.filterMap parseIntJs
    if numericIds.length = 0 then
      ({ status := 400, deletedCount := none }, s)
    else if s.deleteOk then
      ({ status := 200, deletedCount := some numericIds.length },
        { s with expenses :=
            s.expenses.filter (fun r => decide ((r.id : Int) ∉ numericIds)) })
    else
      ({ status := 500, deletedCount := none }, s)

/-- An animal record, restricted to the fields `getAnimalSummary` reads
(`type`, `gender` and `status` are compared against string literals in the
source, so they stay strings here; the remaining wire fields play no part in
the summary). -/
structure Animal where
  id : String
  type : String
  gender : String
  status : String
  currentWeight : Option Rat
  purchasePrice : Option Rat
  salePrice : Option Rat
deriving DecidableEq

/-- A weight record as `getAnimalSummary` reads it.  The source compares
dates through `new Date(d).getTime()`; the record here carries that
timestamp directly as a natural number. -/
structure WeightRec where
  id : String
  animalId : String
  weight : Rat
  date : Nat
deriving DecidableEq

/-- Stable insertion step for the descending-by-date sort: `r` goes in
front of the first element whose date does not exceed it, so records
inserted earlier (which sit earlier in the source array) stay first among
equal dates, as with the stable JS `Array.prototype.sort`. -/
def insertDesc (r : WeightRec) : List WeightRec → List WeightRec
  | [] => [r]
  | x :: xs => if x.date ≤ r.date then r :: x :: xs else x :: insertDesc r xs

/-- The JS `sort((a, b) => date(b) - date(a))`: a stable sort putting the
most recent date first, rendered as an insertion sort. -/
def sortDescByDate : List WeightRec → List WeightRec
  | [] => []
  | x :: xs => insertDesc x (sortDescByDate xs)

/-- The body of the `animals.map` in `getAnimalSummary`: the animal's weight
records, sorted most-recent-first, decide its weight; with no record,
`animal.currentWeight || 0` is used. -/
def latestWeightOf (weightRecords : List WeightRec) (animal : Animal) : Rat :=
  match sortDescByDate
      (weightRecords.filter (fun w => decide (w.animalId = animal.id))) with
  | r :: _ => r.weight
  | [] => animal.currentWeight.getD 0

/-- The `animalWeights` array of `getAnimalSummary`: one candidate weight
per animal, keeping only the strictly positive ones. -/
def animalWeights (animals : List Animal) (weightRecords : List WeightRec) :
    List Rat :=
  (animals.map (latestWeightOf weightRecords)).filter (fun w => decide (0 < w))

/-- The summary returned by GET /api/animals/summary. -/
structure AnimalSummary where
  totalAnimals : Nat
  totalGoats : Nat
  totalSheep : Nat
  totalMales : Nat
  totalFemales : Nat
  activeAnimals : Nat
  soldAnimals : Nat
  readyToSell : Nat
  deadAnimals : Nat
  averageWeight : Rat
  totalInvestment : Rat
  totalRevenue : Rat
  profitLoss : Rat
deriving DecidableEq

/-- The average-weight computation of `getAnimalSummary`: the summary field
starts at `0` and is overwritten with `reduce(sum) / length` only when
`animalWeights` is non-empty, so the empty case stays `0` instead of the
`NaN` a bare division would give. -/
def averageWeightOf (ws : List Rat) : Rat :=
  if 0 < ws.length then ws.foldl (fun sum w => sum + w) 0 / (ws.length : Rat)
  else 0

/-- The field `summary.totalInvestment`: `reduce` of `purchasePrice || 0` over all
animals. -/
def totalInvestmentOf (animals : List Animal) : Rat :=
  animals.foldl (fun sum a => sum + a.purchasePrice.getD 0) 0

/-- The field `summary.totalRevenue`: `reduce` of `salePrice || 0` over the animals
with status `sold`. -/
def totalRevenueOf (animals : List Animal) : Rat :=
  (animals.filter (fun a => decide (a.status = "sold"))).foldl
    (fun sum a => sum + a.salePrice.getD 0) 0

/-- The handler `getAnimalSummary`, as a pure function of the two fetched
collections: predicate counts, the average of `animalWeights` (left at `0`
when that list is empty), and the financial rollups with absent prices
contributing `0`; `profitLoss = totalRevenue - totalInvestment`. -/
def getAnimalSummary (animals : List Animal) (weightRecords : List WeightRec) :
    AnimalSummary :=
  { totalAnimals := animals.length,
    totalGoats := (animals.filter (fun a => decide (a.type = "goat"))).length,
    totalSheep := (animals.filter (fun a => decide (a.type = "sheep"))).length,
    totalMales := (animals.filter (fun a => decide (a.gender = "male"))).length,
    totalFemales :=
      (animals.filter (fun a => decide (a.gender = "female"))).length,
    activeAnimals :=
      (animals.filter (fun a => decide (a.status = "active"))).length,
    soldAnimals :=
      (animals.filter (fun a => decide (a.status = "sold"))).length,
    readyToSell :=
      (animals.filter (fun a => decide (a.status = "ready_to_sell"))).length,
    deadAnimals :=
      (animals.filter (fun a => decide (a.status = "dead"))).length,
    averageWeight := averageWeightOf (animalWeights animals weightRecords),
    totalInvestment := totalInvestmentOf animals,
    totalRevenue := totalRevenueOf animals,
    profitLoss := totalRevenueOf animals - totalInvestmentOf animals }

/-! ### Example data shared by witnesses and counterexamples -/

/-- A store holding one category and no expenses, with every store call
succeeding. -/
def egStore : Store :=
  { categories := [{ id := 1, name := some "Food",
                     subCategories := [some "General"] }],
    expenses := [],
    nextCategoryId := 2,
    nextExpenseId := 1,
    catInsertOk := fun _ => true,
    expInsertOk := fun _ => true,
    deleteOk := true }

/-- An empty store with every store call succeeding. -/
def egStoreEmpty : Store :=
  { categories := [], expenses := [], nextCategoryId := 1, nextExpenseId := 1,
    catInsertOk := fun _ => true, expInsertOk := fun _ => true,
    deleteOk := true }

/-- The store `egStore` with category creation failing. -/
def egStoreCatFail : Store :=
  { egStore with catInsertOk := fun _ => false }

/-- A fully populated valid expense whose category exists in `egStore`. -/
def egValidExpense : RawExpense :=
  { description := some "Milk", amount := some 50, type := some "Expense",
    date := some "2024-01-05", paidBy := some "Asha", category := some "Food",
    subCategory := some "Dairy", source := some "Farm", notes := some "" }

/-- The expense `egValidExpense` with the description removed. -/
def egNoDescription : RawExpense :=
  { egValidExpense with description := none }

/-- The expense `egValidExpense` with the amount removed. -/
def egNoAmount : RawExpense :=
  { egValidExpense with amount := none }

/-! ### Claim theorems -/

/-- Claim C1: an expense whose description, amount or category is missing,
empty or zero makes `addExpense` answer 400 with the store returned exactly
as received — no category row (nor anything else) is created, because the
validation check runs before `insertExpense` is ever reached. -/
theorem addExpense_validation_precedes_store (s : Store) (e : RawExpense)
    (h : e.description = none ∨ e.description = some "" ∨ e.amount = none ∨
      e.amount = some 0 ∨ e.category = none ∨ e.category = some "") :
    addExpense s e = (400, s) := by
  have hcond :
      (strFalsy e.description || numFalsy e.amount || strFalsy e.category)
        = true := by
    rcases h with h | h | h | h | h | h <;> simp [h, strFalsy, numFalsy]
  unfold addExpense
  simp [hcond]

/-- Witness for C1: a concrete expense missing its amount is rejected with
status 400 and the store (here `egStore`) is untouched. -/
theorem addExpense_validation_precedes_store_witness :
    (egNoAmount.amount = none ∨ egNoAmount.description = none ∨
      egNoAmount.category = none) ∧
    addExpense egStore egNoAmount = (400, egStore) :=
  ⟨Or.inl rfl,
    addExpense_validation_precedes_store egStore egNoAmount
      (Or.inr (Or.inr (Or.inl rfl)))⟩

/-- Claim C2, counterexample: on the unparsable date string `not-a-date`
the reader does substitute the current date, but the warning the claim
announces never fires — the `console.warn` lives in a catch block and no
operation of the try block throws on a string, so the warned flag is
`false`, not `true`. -/
theorem normalizeDate_unparsable_cex :
    (normalizeDate "2025-06-15" "not-a-date").1 = "2025-06-15" ∧
    ¬((normalizeDate "2025-06-15" "not-a-date").2 = true) := by
  decide

/-- Claim C2 as amended: a strict `YYYY-MM-DD` string passes through
unchanged; a string splitting on `/` into exactly three parts is rebuilt as
`year-paddedMonth-paddedDay` (so `1/5/2024` becomes `2024-01-05`); every
other non-empty string is silently replaced by the current date with no
warning emitted, and the record is still produced. -/
theorem normalizeDate_spec (today s : String) :
    (dateRegexMatch s = true → normalizeDate today s = (s, false)) ∧
    (∀ m d y, dateRegexMatch s = false → splitSlash s = [m, d, y] →
      normalizeDate today s =
        (y ++ "-" ++ padStart2 m ++ "-" ++ padStart2 d, false)) ∧
    (s ≠ "" → dateRegexMatch s = false → (splitSlash s).length ≠ 3 →
      normalizeDate today s = (today, false)) ∧
    normalizeDate today "1/5/2024" = ("2024-01-05", false) := by
  refine ⟨?_, ?_, ?_, ?_⟩
  · intro hre
    have hne : s ≠ "" := by
      intro he
      rw [he] at hre
      exact absurd hre (by decide)
    unfold normalizeDate
    simp [hne, hre]
  · intro m d y hre hsplit
    have hne : s ≠ "" := by
      intro he
      rw [he] at hsplit
      have : splitSlash "" = [""] := by decide
      rw [this] at hsplit
      exact absurd hsplit (by simp)
    unfold normalizeDate
    simp [hne, hre, hsplit]
  · intro hne hre hlen
    have h3 : ∀ l : List String, l.length ≠ 3 →
        (match l with
          | [month, day, year] =>
            (year ++ "-" ++ padStart2 month ++ "-" ++ padStart2 day, false)
          | _ => (today, false)) = (today, false) := by
      intro l hl
      match l with
      | [] => rfl
      | [_] => rfl
      | [_, _] => rfl
      | [_, _, _] => exact absurd rfl hl
      | _ :: _ :: _ :: _ :: _ => rfl
    unfold normalizeDate
    rw [if_neg hne, hre, if_neg (by simp)]
    exact h3 (splitSlash s) hlen
  · have hsplit : splitSlash "1/5/2024" = ["1", "5", "2024"] := by decide
    unfold normalizeDate
    rw [if_neg (by decide : ¬("1/5/2024" : String) = ""),
      (by decide : dateRegexMatch "1/5/2024" = false), if_neg (by simp),
      hsplit]
    show ("2024" ++ "-" ++ padStart2 "1" ++ "-" ++ padStart2 "5", false) =
      (("2024-01-05" : String), false)
    decide

/-- Witness for C2: the theorem applied to the concrete slash date
`7/9/2023`, whose padded reformatting is `2023-07-09`. -/
theorem normalizeDate_spec_witness :
    dateRegexMatch "7/9/2023" = false ∧
    splitSlash "7/9/2023" = ["7", "9", "2023"] ∧
    normalizeDate "2025-06-15" "7/9/2023" = ("2023-07-09", false) :=
  ⟨by decide, by decide,
    (normalizeDate_spec "2025-06-15" "7/9/2023").2.1 "7" "9" "2023"
      (by decide) (by decide)⟩

/-- A source row carrying every aliased field under both its capitalized
label and its camelCase key, with different values. -/
def egRowBothKeys : SourceRow :=
  { id := some 7,
    dateCap := some "2024-01-05", date := some "12/31/2023",
    typeCap := some "Income", type := some "Expense",
    descriptionCap := some "Goat feed", description := some "Vet visit",
    amountCap := some 10, amount := some 20,
    paidByCap := some "Alice", paidBy := some "Bob",
    categoryCap := some "Feed", category := some "Vet",
    subCategoryCap := some "Hay", subCategory := some "Medicine",
    sourceCap := some "Market", source := some "Clinic",
    notesCap := some "label notes", notes := some "camel notes" }

/-- Claim C3, counterexample: with `Paid By = Alice` and `paidBy = Bob`
both present, the reader keeps `Alice` — the capitalized label, not the
camelCase key the claim says is preferred. -/
theorem transformExpenseRow_alias_cex :
    (transformExpenseRow "2025-06-15" 0 egRowBothKeys).paidBy = "Alice" ∧
    ¬((transformExpenseRow "2025-06-15" 0 egRowBothKeys).paidBy = "Bob") := by
  decide

/-- Claim C3 as amended: for every aliased field the reader prefers the
capitalized human label — whenever the label holds a truthy (non-empty,
non-zero) value, that value is taken and the camelCase key is ignored; the
camelCase key only fills in when the label is absent or falsy. -/
theorem transformExpenseRow_prefers_label (today : String) (index : Nat)
    (r : SourceRow) (dv tv dsc pb cat sub src nts : String) (av : Rat)
    (hd : strVal r.dateCap = some dv)
    (ht : strVal r.typeCap = some tv)
    (hdesc : strVal r.descriptionCap = some dsc)
    (ha : numVal r.amountCap = some av)
    (hp : strVal r.paidByCap = some pb)
    (hc : strVal r.categoryCap = some cat)
    (hs : strVal r.subCategoryCap = some sub)
    (hsrc : strVal r.sourceCap = some src)
    (hn : strVal r.notesCap = some nts) :
    (transformExpenseRow today index r).date = (normalizeDate today dv).1 ∧
    (transformExpenseRow today index r).type = tv ∧
    (transformExpenseRow today index r).description = dsc ∧
    (transformExpenseRow today index r).amount = av ∧
    (transformExpenseRow today index r).paidBy = pb ∧
    (transformExpenseRow today index r).category = cat ∧
    (transformExpenseRow today index r).subCategory = sub ∧
    (transformExpenseRow today index r).source = src ∧
    (transformExpenseRow today index r).notes = nts := by
  unfold transformExpenseRow
  simp [hd, ht, hdesc, ha, hp, hc, hs, hsrc, hn, Option.orElse]

/-- Witness for C3: the amended theorem applied to `egRowBothKeys`; every
output field carries the capitalized-label value. -/
theorem transformExpenseRow_prefers_label_witness :
    strVal egRowBothKeys.paidByCap = some "Alice" ∧
    (transformExpenseRow "2025-06-15" 0 egRowBothKeys).paidBy = "Alice" ∧
    (transformExpenseRow "2025-06-15" 0 egRowBothKeys).category = "Feed" ∧
    (transformExpenseRow "2025-06-15" 0 egRowBothKeys).amount = 10 :=
  ⟨by decide,
    (transformExpenseRow_prefers_label "2025-06-15" 0 egRowBothKeys
      "2024-01-05" "Income" "Goat feed" "Alice" "Feed" "Hay" "Market"
      "label notes" 10 rfl rfl rfl rfl rfl rfl rfl rfl rfl).2.2.2.2.1,
    (transformExpenseRow_prefers_label "2025-06-15" 0 egRowBothKeys
      "2024-01-05" "Income" "Goat feed" "Alice" "Feed" "Hay" "Market"
      "label notes" 10 rfl rfl rfl rfl rfl rfl rfl rfl rfl).2.2.2.2.2.1,
    (transformExpenseRow_prefers_label "2025-06-15" 0 egRowBothKeys
      "2024-01-05" "Income" "Goat feed" "Alice" "Feed" "Hay" "Market"
      "label notes" 10 rfl rfl rfl rfl rfl rfl rfl rfl rfl).2.2.2.1⟩

/-- Claim C4: resolving the unseen category `Transport` for an expense with
no sub-category creates a row whose `subCategories` is `[null]`, not the
`["General"]` the claim (and the spec) require: the fallback is written
`subCatgrs || ["General"]` over the wrapper array `[expense.subCategory]`,
and an array is always truthy, so the `["General"]` arm is dead code. -/
theorem resolveCategory_null_subcategory :
    (resolveCategory egStoreEmpty (some "Transport") none).2.categories =
      [{ id := 1, name := some "Transport", subCategories := [none] }] ∧
    subCategoriesForCreate none ≠ [some "General"] ∧
    (resolveCategory egStoreEmpty (some "Transport") none).1 =
      Except.ok 1 := by
  refine ⟨rfl, by decide, rfl⟩

lemma resolveCategory_expenses_eq (s : Store) (cat sub : Option String) :
    (resolveCategory s cat sub).2.expenses = s.expenses ∧
    (resolveCategory s cat sub).2.nextExpenseId = s.nextExpenseId ∧
    (resolveCategory s cat sub).2.expInsertOk = s.expInsertOk := by
  unfold resolveCategory
  cases h : lookupCategorySingle s cat with
  | some cid => exact ⟨rfl, rfl, rfl⟩
  | none =>
    by_cases hok : s.catInsertOk s.nextCategoryId = true
    · simp [hok]
    · simp [hok]

lemma insertExpense_expenses_ok (s : Store) (e : RawExpense)
    (row : ExpenseRow) (s1 : Store)
    (h : insertExpense s e = (Except.ok row, s1)) :
    s1.expenses = s.expenses ++ [row] := by
  unfold insertExpense at h
  rcases hr : resolveCategory s e.category e.subCategory with ⟨res, sr⟩
  rw [hr] at h
  cases res with
  | error err => exact absurd h (by simp)
  | ok cid =>
    by_cases hok : sr.expInsertOk sr.nextExpenseId = true
    · simp only [hok, if_true] at h
      obtain ⟨hrow, hs1⟩ := Prod.mk.injEq .. ▸ h
      have hsr : sr.expenses = s.expenses := by
        have := (resolveCategory_expenses_eq s e.category e.subCategory).1
        rw [hr] at this
        exact this
      rw [← hs1]
      simp only []
      rw [hsr]
      cases hrow
      rfl
    · simp [hok] at h

lemma insertExpense_expenses_err (s : Store) (e : RawExpense)
    (err : InsertErr) (s1 : Store)
    (h : insertExpense s e = (Except.error err, s1)) :
    s1.expenses = s.expenses := by
  unfold insertExpense at h
  rcases hr : resolveCategory s e.category e.subCategory with ⟨res, sr⟩
  rw [hr] at h
  have hsr : sr.expenses = s.expenses := by
    have := (resolveCategory_expenses_eq s e.category e.subCategory).1
    rw [hr] at this
    exact this
  cases res with
  | error e2 =>
    obtain ⟨-, hs1⟩ := Prod.mk.injEq .. ▸ h
    rw [← hs1]
    exact hsr
  | ok cid =>
    by_cases hok : sr.expInsertOk sr.nextExpenseId = true
    · simp [hok] at h
    · simp only [hok, Bool.false_eq_true, if_false] at h
      obtain ⟨-, hs1⟩ := Prod.mk.injEq .. ▸ h
      rw [← hs1]
      exact hsr

/-- Claim C5: when the category lookup misses and the creation of the
missing category fails, `insertExpense` fails with the creation error and
returns the store exactly as it was — in particular no expense row (with a
zero, null or any other categoryId) is inserted — and a validation-passing
`addExpense` surfaces the failure as a 500 with the store unchanged. -/
theorem insertExpense_category_failure (s : Store) (e : RawExpense)
    (hmiss : lookupCategorySingle s e.category = none)
    (hfail : s.catInsertOk s.nextCategoryId = false) :
    insertExpense s e = (Except.error InsertErr.categoryCreate, s) ∧
    ((strFalsy e.description || numFalsy e.amount || strFalsy e.category)
        = false →
      addExpense s e = (500, s)) := by
  have hres : resolveCategory s e.category e.subCategory =
      (Except.error InsertErr.categoryCreate, s) := by
    unfold resolveCategory
    rw [hmiss, hfail]
    simp
  have hins : insertExpense s e =
      (Except.error InsertErr.categoryCreate, s) := by
    unfold insertExpense
    rw [hres]
  refine ⟨hins, fun hv => ?_⟩
  unfold addExpense
  rw [hv]
  simp only [Bool.false_eq_true, if_false]
  rw [hins]

/-- Witness for C5: with category creation failing, inserting an expense
with the unseen category `NewCat` errors and leaves the store untouched,
and `addExpense` answers 500 on that same store. -/
theorem insertExpense_category_failure_witness :
    lookupCategorySingle egStoreCatFail (some "NewCat") = none ∧
    egStoreCatFail.catInsertOk egStoreCatFail.nextCategoryId = false ∧
    insertExpense egStoreCatFail
        { egValidExpense with category := some "NewCat" } =
      (Except.error InsertErr.categoryCreate, egStoreCatFail) ∧
    addExpense egStoreCatFail { egValidExpense with category := some "NewCat" }
      = (500, egStoreCatFail) := by
  have h := insertExpense_category_failure egStoreCatFail
    { egValidExpense with category := some "NewCat" } rfl rfl
  exact ⟨rfl, rfl, h.1, h.2 (by decide)⟩

lemma importLoop_spec (es : List RawExpense) : ∀ s : Store,
    (importLoop s es).1.1 + (importLoop s es).1.2.length = es.length ∧
    (importLoop s es).2.expenses.length =
      s.expenses.length + (importLoop s es).1.1 := by
  induction es with
  | nil => intro s; simp [importLoop]
  | cons e rest ih =>
    intro s
    rcases hins : insertExpense s e with ⟨res, s1⟩
    rcases hloop : importLoop s1 rest with ⟨⟨n, errs⟩, s2⟩
    have ihr := ih s1
    rw [hloop] at ihr
    have ih1 : n + errs.length = rest.length := ihr.1
    have ih2 : s2.expenses.length = s1.expenses.length + n := ihr.2
    cases res with
    | ok row =>
      have hlen : s1.expenses.length = s.expenses.length + 1 := by
        rw [insertExpense_expenses_ok s e row s1 hins]
        simp
      have hstep : importLoop s (e :: rest) = ((n + 1, errs), s2) := by
        simp only [importLoop, hins, hloop]
      rw [hstep]
      refine ⟨?_, ?_⟩
      · show n + 1 + errs.length = (e :: rest).length
        simp only [List.length_cons]
        omega
      · show s2.expenses.length = s.expenses.length + (n + 1)
        omega
    | error err =>
      have hlen : s1.expenses.length = s.expenses.length := by
        rw [insertExpense_expenses_err s e err s1 hins]
      have hstep : importLoop s (e :: rest) = ((n, e.description :: errs), s2) := by
        simp only [importLoop, hins, hloop]
      rw [hstep]
      refine ⟨?_, ?_⟩
      · show n + (e.description :: errs).length = (e :: rest).length
        simp only [List.length_cons]
        omega
      · show s2.expenses.length = s.expenses.length + n
        omega

/-- Claim C6 as amended: bulk import runs each record through the insert
pipeline independently — every record is processed, so `totalCount` is the
input length, `successCount` plus the number of reported errors equals the
input length (the errors array is non-empty exactly when some record
failed), and exactly `successCount` expense rows are appended to the store. -/
theorem importExpenses_counts (s : Store) (es : List RawExpense) :
    (importExpenses s es).1.totalCount = es.length ∧
    (importExpenses s es).1.successCount +
      (importExpenses s es).1.errors.length = es.length ∧
    (importExpenses s es).2.expenses.length =
      s.expenses.length + (importExpenses s es).1.successCount := by
  have h := importLoop_spec es s
  rcases hloop : importLoop s es with ⟨⟨n, errs⟩, s1⟩
  rw [hloop] at h
  have : importExpenses s es =
      ({ successCount := n, totalCount := es.length, errors := errs }, s1) := by
    unfold importExpenses
    rw [hloop]
  rw [this]
  exact ⟨rfl, h.1, h.2⟩

/-- Claim C6, counterexample: bulk import does not re-run the
single-expense validation, so with a store that accepts the row, importing
`[valid, invalid-missing-description]` persists both records —
`successCount` is 2, not the claimed 1, and the errors array is empty, not
non-empty; the second stored row has a null description. -/
theorem importExpenses_missing_description_cex :
    (importExpenses egStore [egValidExpense, egNoDescription]).1.successCount
      = 2 ∧
    (importExpenses egStore [egValidExpense, egNoDescription]).1.errors
      = [] ∧
    ((importExpenses egStore [egValidExpense, egNoDescription]).2.expenses.map
      ExpenseRow.description) = [some "Milk", none] := by
  refine ⟨rfl, rfl, rfl⟩

/-- The store after `resolveCategory` has created a missing category (the
row appended, the fresh id consumed). -/
def createdStore (s : Store) (cat sub : Option String) : Store :=
  { s with
    categories := s.categories ++
      [{ id := s.nextCategoryId, name := cat,
         subCategories := subCategoriesForCreate sub }],
    nextCategoryId := s.nextCategoryId + 1 }

lemma createdStore_categories (s : Store) (cat sub : Option String) :
    (createdStore s cat sub).categories =
      s.categories ++
        [{ id := s.nextCategoryId, name := cat,
           subCategories := subCategoriesForCreate sub }] := rfl

lemma resolveCategory_miss (s : Store) (cat sub : Option String)
    (hlook : lookupCategorySingle s cat = none)
    (hok : s.catInsertOk s.nextCategoryId = true) :
    resolveCategory s cat sub =
      (Except.ok s.nextCategoryId, createdStore s cat sub) := by
  simp [resolveCategory, hlook, hok, createdStore]

lemma resolveCategory_hit (s : Store) (cat sub : Option String) (cid : Nat)
    (hlook : lookupCategorySingle s cat = some cid) :
    resolveCategory s cat sub = (Except.ok cid, s) := by
  unfold resolveCategory
  rw [hlook]

/-- Claim C9: in a store holding at most one category row with the given
name, two sequential resolutions of that name succeed with the same
identifier (creating the row on the first call if it is absent), and the
second resolution is a pure lookup — it returns the store of the first call
unchanged, so no duplicate row is created. -/
theorem resolveCategory_sequential_idempotent (s : Store) (name : String)
    (sub sub2 : Option String)
    (huniq : (s.categories.filter
      (fun c => decide (c.name = some name))).length ≤ 1)
    (hok : s.catInsertOk s.nextCategoryId = true) :
    ∃ cid s1,
      resolveCategory s (some name) sub = (Except.ok cid, s1) ∧
      resolveCategory s1 (some name) sub2 = (Except.ok cid, s1) := by
  cases hf : s.categories.filter (fun c => decide (c.name = some name)) with
  | nil =>
    have hlook : lookupCategorySingle s (some name) = none := by
      unfold lookupCategorySingle
      rw [hf]
    have h1 := resolveCategory_miss s (some name) sub hlook hok
    have hfil : (createdStore s (some name) sub).categories.filter
          (fun c => decide (c.name = some name)) =
        [{ id := s.nextCategoryId, name := some name,
           subCategories := subCategoriesForCreate sub }] := by
      rw [createdStore_categories, List.filter_append, hf]
      simp [List.filter]
    have hlook2 : lookupCategorySingle (createdStore s (some name) sub)
        (some name) = some s.nextCategoryId := by
      unfold lookupCategorySingle
      rw [hfil]
    have h2 := resolveCategory_hit (createdStore s (some name) sub)
      (some name) sub2 s.nextCategoryId hlook2
    exact ⟨s.nextCategoryId, createdStore s (some name) sub, h1, h2⟩
  | cons c tail =>
    cases tail with
    | nil =>
      have hlook : lookupCategorySingle s (some name) = some c.id := by
        unfold lookupCategorySingle
        rw [hf]
      exact ⟨c.id, s, resolveCategory_hit s (some name) sub c.id hlook,
        resolveCategory_hit s (some name) sub2 c.id hlook⟩
    | cons c2 tail2 =>
      exfalso
      rw [hf] at huniq
      simp [List.length_cons] at huniq

/-- Witness for C9: resolving the unseen name `Transport` twice on the
empty store yields the same id both times, with the second call leaving the
store of the first call as it is. -/
theorem resolveCategory_sequential_idempotent_witness :
    (egStoreEmpty.categories.filter
      (fun c => decide (c.name = some "Transport"))).length ≤ 1 ∧
    egStoreEmpty.catInsertOk egStoreEmpty.nextCategoryId = true ∧
    ∃ cid s1,
      resolveCategory egStoreEmpty (some "Transport") (some "Hay")
        = (Except.ok cid, s1) ∧
      resolveCategory s1 (some "Transport") none = (Except.ok cid, s1) :=
  ⟨by decide, rfl,
    resolveCategory_sequential_idempotent egStoreEmpty "Transport"
      (some "Hay") none (by decide) rfl⟩

lemma sortDescByDate_head_spec :
    ∀ l : List WeightRec, l ≠ [] →
      ∃ h t, sortDescByDate l = h :: t ∧ h ∈ l ∧ ∀ y ∈ l, y.date ≤ h.date := by
  intro l
  induction l with
  | nil => intro h; exact absurd rfl h
  | cons a xs ih =>
    intro _
    by_cases hxs : xs = []
    · subst hxs
      refine ⟨a, [], rfl, List.mem_singleton.mpr rfl, ?_⟩
      intro y hy
      rw [List.mem_singleton] at hy
      rw [hy]
    · obtain ⟨h, t, hsort, hmem, hmax⟩ := ih hxs
      have hstep : sortDescByDate (a :: xs) = insertDesc a (h :: t) := by
        show insertDesc a (sortDescByDate xs) = insertDesc a (h :: t)
        rw [hsort]
      by_cases hle : h.date ≤ a.date
      · refine ⟨a, h :: t, ?_, List.mem_cons_self a xs, ?_⟩
        · rw [hstep]
          simp only [insertDesc]
          rw [if_pos hle]
        · intro y hy
          rcases List.mem_cons.mp hy with hya | hyxs
          · rw [hya]
          · exact le_trans (hmax y hyxs) hle
      · refine ⟨h, insertDesc a t, ?_, List.mem_cons_of_mem a hmem, ?_⟩
        · rw [hstep]
          simp only [insertDesc]
          rw [if_neg hle]
        · intro y hy
          rcases List.mem_cons.mp hy with hya | hyxs
          · rw [hya]
            omega
          · exact hmax y hyxs

lemma getAnimalSummary_averageWeight_eq (animals : List Animal)
    (weightRecords : List WeightRec) :
    (getAnimalSummary animals weightRecords).averageWeight =
      averageWeightOf (animalWeights animals weightRecords) := rfl

/-- Claim C7: the weight an animal contributes to the summary is the
weight of a most-recent record among its own weight records (the filtered
list sorted descending by date, first element taken); an animal with no
weight record contributes `currentWeight || 0` instead; only strictly
positive contributions enter `animalWeights`, so zero-weight animals are
excluded rather than averaged as zero; and `averageWeight` is `0` on an
empty `animalWeights` and otherwise satisfies `avg * length = sum`. -/
theorem getAnimalSummary_latest_weight (animals : List Animal)
    (weightRecords : List WeightRec) :
    (∀ a ∈ animals,
      (weightRecords.filter (fun w => decide (w.animalId = a.id)) = [] →
        latestWeightOf weightRecords a = a.currentWeight.getD 0) ∧
      (weightRecords.filter (fun w => decide (w.animalId = a.id)) ≠ [] →
        ∃ r, r ∈ weightRecords.filter (fun w => decide (w.animalId = a.id)) ∧
          latestWeightOf weightRecords a = r.weight ∧
          ∀ q ∈ weightRecords.filter (fun w => decide (w.animalId = a.id)),
            q.date ≤ r.date)) ∧
    (∀ w ∈ animalWeights animals weightRecords, 0 < w) ∧
    (animalWeights animals weightRecords = [] →
      (getAnimalSummary animals weightRecords).averageWeight = 0) ∧
    (animalWeights animals weightRecords ≠ [] →
      (getAnimalSummary animals weightRecords).averageWeight *
        ((animalWeights animals weightRecords).length : Rat) =
        (animalWeights animals weightRecords).sum) := by
  refine ⟨?_, ?_, ?_, ?_⟩
  · intro a _
    constructor
    · intro hemp
      unfold latestWeightOf
      rw [hemp]
      rfl
    · intro hne
      obtain ⟨h, t, hsort, hmem, hmax⟩ :=
        sortDescByDate_head_spec
          (weightRecords.filter (fun w => decide (w.animalId = a.id))) hne
      refine ⟨h, hmem, ?_, hmax⟩
      unfold latestWeightOf
      rw [hsort]
  · intro w hw
    exact of_decide_eq_true (List.mem_filter.mp hw).2
  · intro hemp
    rw [getAnimalSummary_averageWeight_eq, hemp]
    rfl
  · intro hne
    have hpos : 0 < (animalWeights animals weightRecords).length :=
      List.length_pos.mpr hne
    have hcast : ((animalWeights animals weightRecords).length : Rat) ≠ 0 := by
      exact_mod_cast Nat.pos_iff_ne_zero.mp hpos
    rw [getAnimalSummary_averageWeight_eq]
    unfold averageWeightOf
    rw [if_pos hpos, ← List.sum_eq_foldl]
    exact div_mul_cancel₀ _ hcast

/-- An animal with a current weight and two weight records. -/
def egAnimalWeighed : Animal :=
  { id := "7", type := "goat", gender := "female", status := "active",
    currentWeight := some 45, purchasePrice := none, salePrice := none }

/-- The older weight record of `egAnimalWeighed`. -/
def egWeightOld : WeightRec :=
  { id := "w1", animalId := "7", weight := 50, date := 100 }

/-- The newer weight record of `egAnimalWeighed`. -/
def egWeightNew : WeightRec :=
  { id := "w2", animalId := "7", weight := 60, date := 200 }

/-- Witness for C7: with one animal carrying two weight records, the
average-weight identity holds at the concrete input (the contributing
weight is the most recent record's 60). -/
theorem getAnimalSummary_latest_weight_witness :
    animalWeights [egAnimalWeighed] [egWeightOld, egWeightNew] ≠ [] ∧
    (getAnimalSummary [egAnimalWeighed] [egWeightOld, egWeightNew]).averageWeight *
      ((animalWeights [egAnimalWeighed] [egWeightOld, egWeightNew]).length : Rat) =
      (animalWeights [egAnimalWeighed] [egWeightOld, egWeightNew]).sum :=
  ⟨by decide,
    (getAnimalSummary_latest_weight [egAnimalWeighed]
      [egWeightOld, egWeightNew]).2.2.2 (by decide)⟩

lemma foldl_add_extract (f : Animal → Rat) (l : List Animal) :
    ∀ init : Rat, l.foldl (fun sum a => sum + f a) init = init + (l.map f).sum := by
  induction l with
  | nil => intro init; simp
  | cons a xs ih =>
    intro init
    simp only [List.foldl_cons, List.map_cons, List.sum_cons]
    rw [ih (init + f a)]
    ring

/-- The two animals of the profit-loss example: one active with purchase
price 100, one sold with purchase price 200 and sale price 350. -/
def egAnimalActive : Animal :=
  { id := "1", type := "goat", gender := "male", status := "active",
    currentWeight := none, purchasePrice := some 100, salePrice := none }

/-- The sold animal of the profit-loss example. -/
def egAnimalSold : Animal :=
  { id := "2", type := "sheep", gender := "female", status := "sold",
    currentWeight := none, purchasePrice := some 200, salePrice := some 350 }

/-- Claim C8: `totalInvestment` sums `purchasePrice || 0` over all animals,
`totalRevenue` sums `salePrice || 0` over exactly the animals with status
`sold`, and `profitLoss` is their difference; on the two example animals
the values are 300, 350 and 50. -/
theorem getAnimalSummary_financials :
    (∀ (animals : List Animal) (weightRecords : List WeightRec),
      (getAnimalSummary animals weightRecords).totalInvestment =
        (animals.map (fun a => a.purchasePrice.getD 0)).sum ∧
      (getAnimalSummary animals weightRecords).totalRevenue =
        ((animals.filter (fun a => decide (a.status = "sold"))).map
          (fun a => a.salePrice.getD 0)).sum ∧
      (getAnimalSummary animals weightRecords).profitLoss =
        (getAnimalSummary animals weightRecords).totalRevenue -
          (getAnimalSummary animals weightRecords).totalInvestment) ∧
    (getAnimalSummary [egAnimalActive, egAnimalSold] []).totalInvestment
      = 300 ∧
    (getAnimalSummary [egAnimalActive, egAnimalSold] []).totalRevenue
      = 350 ∧
    (getAnimalSummary [egAnimalActive, egAnimalSold] []).profitLoss = 50 := by
  have hgen : ∀ (animals : List Animal) (weightRecords : List WeightRec),
      (getAnimalSummary animals weightRecords).totalInvestment =
        (animals.map (fun a => a.purchasePrice.getD 0)).sum ∧
      (getAnimalSummary animals weightRecords).totalRevenue =
        ((animals.filter (fun a => decide (a.status = "sold"))).map
          (fun a => a.salePrice.getD 0)).sum ∧
      (getAnimalSummary animals weightRecords).profitLoss =
        (getAnimalSummary animals weightRecords).totalRevenue -
          (getAnimalSummary animals weightRecords).totalInvestment := by
    intro animals weightRecords
    refine ⟨?_, ?_, rfl⟩
    · show totalInvestmentOf animals = _
      unfold totalInvestmentOf
      rw [foldl_add_extract]
      ring
    · show totalRevenueOf animals = _
      unfold totalRevenueOf
      rw [foldl_add_extract]
      ring
  have hfil : [egAnimalActive, egAnimalSold].filter
      (fun a => decide (a.status = "sold")) = [egAnimalSold] := by decide
  have hi : (getAnimalSummary [egAnimalActive, egAnimalSold] []).totalInvestment
      = 300 := by
    rw [(hgen [egAnimalActive, egAnimalSold] []).1]
    norm_num [egAnimalActive, egAnimalSold]
  have hr : (getAnimalSummary [egAnimalActive, egAnimalSold] []).totalRevenue
      = 350 := by
    rw [(hgen [egAnimalActive, egAnimalSold] []).2.1, hfil]
    norm_num [egAnimalSold]
  have hp : (getAnimalSummary [egAnimalActive, egAnimalSold] []).profitLoss
      = 50 := by
    rw [(hgen [egAnimalActive, egAnimalSold] []).2.2, hi, hr]
    norm_num
  exact ⟨hgen, hi, hr, hp⟩

/-- Claim C10: with at least one parseable id in the request, the
bulk-delete handler reports `deletedCount` equal to the number of ids that
`parseInt` parsed — independently of how many stored rows those ids
actually match — and removes exactly the rows whose id is in that list;
with no parseable id it answers 400 and the store is untouched. -/
theorem bulkDeleteExpenses_counts_parsed (s : Store) (ids : List String)
    (hok : s.deleteOk = true) :
    (ids.filterMap parseIntJs ≠ [] →
      bulkDeleteExpenses s (some ids) =
        ({ status := 200,
           deletedCount := some (ids.filterMap parseIntJs).length },
         { s with
           expenses := s.expenses.filter
             (fun r => decide ((r.id : Int) ∉ ids.filterMap parseIntJs)) })) ∧
    (ids.filterMap parseIntJs = [] →
      bulkDeleteExpenses s (some ids) =
        ({ status := 400, deletedCount := none }, s)) := by
  constructor
  · intro hne
    have hlen : ¬(ids.filterMap parseIntJs).length = 0 := by
      simpa using hne
    simp only [bulkDeleteExpenses]
    rw [if_neg hlen, if_pos hok]
  · intro hemp
    have hlen : (ids.filterMap parseIntJs).length = 0 := by
      rw [hemp]
      rfl
    simp only [bulkDeleteExpenses]
    rw [if_pos hlen]

/-- Witness for C10: of `["5", "abc", "12"]` two ids parse, so the success
response reports `deletedCount = 2` even though the store holds no expense
at all (zero rows are actually removed). -/
theorem bulkDeleteExpenses_counts_parsed_witness :
    egStore.deleteOk = true ∧
    ["5", "abc", "12"].filterMap parseIntJs ≠ [] ∧
    (bulkDeleteExpenses egStore (some ["5", "abc", "12"])).1 =
      { status := 200, deletedCount := some 2 } ∧
    (bulkDeleteExpenses egStore (some ["5", "abc", "12"])).2.expenses = [] := by
  have h := (bulkDeleteExpenses_counts_parsed egStore ["5", "abc", "12"]
    rfl).1 (by decide)
  refine ⟨rfl, by decide, ?_, ?_⟩
  · rw [h]
    rfl
  · rw [h]
    rfl

end FarmApi
